import Mathlib

/-!
# LoRaWAN MAC command fields (`mac_commands.go`)

A shallow embedding of the checked constructors and accessors of
`mac_commands.go`, followed by theorems about them.

Conventions of the embedding:

* a Go `uint8` / `byte` / `uint32` is a `Nat`; arithmetic that can leave the
  width in Go is reduced `% 2 ^ w` at the place where Go would wrap;
* a Go function returning `(T, error)` returns a `Result T`, which also
  records the value handed back together with a non-nil error and has a
  third outcome for a run-time fault (index out of range);
* fixed-size Go arrays are structures with one field per element and a
  checked index operation.
-/

namespace Lorawan

/-! ## Outcomes of a Go call -/

/-- Outcome of a Go function with result type `(T, error)`.
`ok v` is `(v, nil)`, `error v msg` is `(v, errors.New(msg))`, and `crash`
is a run-time fault that unwinds the call (an index out of range). -/
inductive Result (α : Type) where
  | ok (val : α) : Result α
  | error (val : α) (msg : String) : Result α
  | crash : Result α
deriving DecidableEq, Repr

/-- True exactly when the call returned a non-nil error. -/
def Result.isError {α : Type} : Result α → Bool
  | .error _ _ => true
  | _ => false

/-- True exactly when the call returned with a nil error. -/
def Result.isOk {α : Type} : Result α → Bool
  | .ok _ => true
  | _ => false

/-! ## ChMask -/

/-- The Go type `ChMask [2]byte`. -/
structure ChMask where
  b0 : Nat
  b1 : Nat
deriving DecidableEq, Repr

/-- The zero value `var mask ChMask`. -/
def ChMask.zero : ChMask := ⟨0, 0⟩

/-- Checked read `m[i]`: `none` is Go's index-out-of-range fault. -/
def ChMask.index? (m : ChMask) (i : Nat) : Option Nat :=
  match i with
  | 0 => some m.b0
  | 1 => some m.b1
  | _ => none

/-- Write `m[i] = v` at an index already known to be in range. -/
def ChMask.assign (m : ChMask) (i v : Nat) : ChMask :=
  match i with
  | 0 => { m with b0 := v }
  | 1 => { m with b1 := v }
  | _ => m

/-- The body of `for _, c := range chans` in `NewChMask`, with the early
return on a channel number above 16 and the fault of `mask[i]`. -/
def NewChMask.loop : ChMask → List Nat → Result ChMask
  | mask, [] => .ok mask
  | mask, c :: rest =>
    if c > 16 then
      .error mask "lorawan: the max. channel number is 16"
    else
      -- `c = c - 1` in uint8 arithmetic
      let c := (c + 256 - 1) % 256
      let i := c / 8
      let b := c % 8
      match mask.index? i with
      | none => .crash
      | some x => NewChMask.loop (mask.assign i ((x ^^^ (1 <<< b)) % 256)) rest

/-- `func NewChMask(chans ...uint8) (ChMask, error)`. -/
def NewChMask (chans : List Nat) : Result ChMask :=
  NewChMask.loop ChMask.zero chans

/-- One iteration of the loop of `Channels`, for the counter value `c`. -/
def ChMask.Channels.step (m : ChMask) (chans : List Nat) (c : Nat) : List Nat :=
  let i := c / 8
  let b := c % 8
  -- `i` is `c / 8` with `c < 16`, so the read is always in range
  if (m.index? i).getD 0 &&& (1 <<< b) > 0 then chans ++ [c + 1] else chans

/-- `func (m ChMask) Channels() []uint8`: the loop `for c := uint8(0); c < 16; c++`. -/
def ChMask.Channels (m : ChMask) : List Nat :=
  (List.range 16).foldl (ChMask.Channels.step m) []

/-- Bit `k mod 8` of byte `k div 8` of a mask, the bit that stands for
channel number `k + 1`; `false` when `k div 8` is not an index of the mask. -/
def ChMask.bit (m : ChMask) (k : Nat) : Bool :=
  ((m.index? (k / 8)).getD 0).testBit (k % 8)

/-! ## Redundacy -/

/-- `func NewRedundacy(chMaskCntl, nbRep uint8) (Redundacy, error)`. -/
def NewRedundacy (chMaskCntl nbRep : Nat) : Result Nat :=
  let r := 0
  if chMaskCntl > 7 then
    .error r "lorawan: max value of chMaskCntl is 7"
  else if nbRep > 15 then
    .error r "lorawan: max value of nbRep is 15"
  else
    .ok (((chMaskCntl <<< 4) % 256) ^^^ nbRep)

/-- `func (r Redundacy) ChMaskCntl() uint8`. -/
def Redundacy.ChMaskCntl (r : Nat) : Nat :=
  let mask := (1 <<< 6) ^^^ (1 <<< 5) ^^^ (1 <<< 4)
  (r &&& mask) >>> 4

/-- `func (r Redundacy) NbRep() uint8`. -/
def Redundacy.NbRep (r : Nat) : Nat :=
  let mask := (1 <<< 3) ^^^ (1 <<< 2) ^^^ (1 <<< 1) ^^^ (1 <<< 0)
  r &&& mask

/-! ## DataRateTXPower -/

/-- `func NewDataRateTXPower(dataRate, txPower uint8) (DataRateTXPower, error)`. -/
def NewDataRateTXPower (dataRate txPower : Nat) : Result Nat :=
  let dr := 0
  if dataRate > 15 then
    .error dr "lorawan: max value for dataRate is 15"
  else if txPower > 15 then
    .error dr "lorawan: max value for txPower is 15"
  else
    .ok (((dataRate <<< 4) % 256) ^^^ txPower)

/-- `func (dr DataRateTXPower) DataRate() uint8`. -/
def DataRateTXPower.DataRate (dr : Nat) : Nat :=
  dr >>> 4

/-- `func (dr DataRateTXPower) TXPower() uint8`. -/
def DataRateTXPower.TXPower (dr : Nat) : Nat :=
  let mask := (1 <<< 3) ^^^ (1 <<< 2) ^^^ (1 <<< 1) ^^^ (1 <<< 0)
  dr &&& mask

/-! ## DutyCycleReqPayload -/

/-- The guard of `NewDutyCycleReqPayload` as written in the source:
`maxDCycle > 15 && maxDCycle < 255`. -/
def NewDutyCycleReqPayload.guard (maxDCycle : Nat) : Bool :=
  decide (maxDCycle > 15) && decide (maxDCycle < 255)

/-- The guard as the specification words it: `maxDCycle > 15 && maxDCycle != 255`. -/
def NewDutyCycleReqPayload.guardIntended (maxDCycle : Nat) : Bool :=
  decide (maxDCycle > 15) && decide (maxDCycle ≠ 255)

/-- `func NewDutyCycleReqPayload(maxDCycle uint8) (DutyCycleReqPayload, error)`. -/
def NewDutyCycleReqPayload (maxDCycle : Nat) : Result Nat :=
  if NewDutyCycleReqPayload.guard maxDCycle then
    .error 0 "lorawan: only a MaxDCycle value of 0 - 15 and 255 is allowed"
  else
    .ok maxDCycle

/-! ## Frequency -/

/-- The Go type `Frequency [3]byte`. -/
structure Frequency where
  b0 : Nat
  b1 : Nat
  b2 : Nat
deriving DecidableEq, Repr

/-- The zero value `var freq Frequency`. -/
def Frequency.zero : Frequency := ⟨0, 0, 0⟩

/-- Write `freq[i] = v` for a constant in-range index. -/
def Frequency.assign (f : Frequency) (i v : Nat) : Frequency :=
  match i with
  | 0 => { f with b0 := v }
  | 1 => { f with b1 := v }
  | 2 => { f with b2 := v }
  | _ => f

/-- The elements of a `Frequency` in index order, as `range f` visits them. -/
def Frequency.toList (f : Frequency) : List Nat := [f.b0, f.b1, f.b2]

/-- `binary.LittleEndian.PutUint32(b, v)` on a 4-byte slice: the four bytes of `v`,
least significant first. -/
def LittleEndian.PutUint32 (v : Nat) : List Nat :=
  [v % 256, (v >>> 8) % 256, (v >>> 16) % 256, (v >>> 24) % 256]

/-- `binary.LittleEndian.Uint32(b)` on a 4-byte slice. -/
def LittleEndian.Uint32 (b : List Nat) : Nat :=
  b.getD 0 0 ||| (b.getD 1 0 <<< 8) ||| (b.getD 2 0 <<< 16) ||| (b.getD 3 0 <<< 24)

/-- The bound of the guard of `NewFrequency` as Go evaluates it: in Go `^` is
bitwise exclusive or, so the constant expression `2^24` is `2 xor 24`. -/
def NewFrequency.bound : Nat := 2 ^^^ 24

/-- `func NewFrequency(frequency uint32) (Frequency, error)`.
The loop `for i := 0; i < 3; i++ { freq[0] = b[0] }` writes index 0 on each
of its three iterations. -/
def NewFrequency (frequency : Nat) : Result Frequency :=
  let freq := Frequency.zero
  if frequency ≥ NewFrequency.bound then
    .error freq "lorawan: max value for frequency is 2^24-1"
  else
    let b := LittleEndian.PutUint32 frequency
    .ok ((List.range 3).foldl (fun (freq : Frequency) (_ : Nat) => freq.assign 0 (b.getD 0 0)) freq)

/-- `func (f Frequency) Uint32() uint32`: copy the three bytes into a zeroed
4-byte slice and read it little-endian. -/
def Frequency.Uint32 (f : Frequency) : Nat :=
  let b := (f.toList.enum).foldl (fun (b : List Nat) (iv : Nat × Nat) => b.set iv.1 iv.2) [0, 0, 0, 0]
  LittleEndian.Uint32 b

/-! ## DLsettings -/

/-- `func (s DLsettings) RX2DataRate() uint8`. -/
def DLsettings.RX2DataRate (s : Nat) : Nat :=
  let mask := (1 <<< 3) ^^^ (1 <<< 2) ^^^ (1 <<< 1) ^^^ (1 <<< 0)
  s &&& mask

/-- `func (s DLsettings) RX1DRoffset() uint8`. -/
def DLsettings.RX1DRoffset (s : Nat) : Nat :=
  let mask := (1 <<< 6) ^^^ (1 <<< 5) ^^^ (1 <<< 4)
  (s &&& mask) >>> 4

/-- `func NewDLsettings(rx2DataRate, rx1DRoffset uint8) (DLsettings, error)`. -/
def NewDLsettings (rx2DataRate rx1DRoffset : Nat) : Result Nat :=
  if rx2DataRate > 15 then
    .error 0 "lorawan: max value for rx2DataRate is 15"
  else if rx1DRoffset > 7 then
    .error 0 "lorawan: max value for rx1DRoffset is 7"
  else
    .ok (rx2DataRate ^^^ ((rx1DRoffset <<< 4) % 256))

/-! ## LinkADRAnsPayload -/

/-- `func NewLinkADRAnsPayload(chMaskACK, dataRateACK, powerACK bool) LinkADRAnsPayload`. -/
def NewLinkADRAnsPayload (chMaskACK dataRateACK powerACK : Bool) : Nat :=
  let p := 0
  let p := if chMaskACK then p ^^^ (1 <<< 0) else p
  let p := if dataRateACK then p ^^^ (1 <<< 1) else p
  let p := if powerACK then p ^^^ (1 <<< 2) else p
  p

/-- `func (p LinkADRAnsPayload) ChMaskACK() bool`. -/
def LinkADRAnsPayload.ChMaskACK (p : Nat) : Bool :=
  decide (p &&& (1 <<< 0) > 0)

/-- `func (p LinkADRAnsPayload) DataRateACK() bool`. -/
def LinkADRAnsPayload.DataRateACK (p : Nat) : Bool :=
  decide (p &&& (1 <<< 1) > 0)

/-- `func (p LinkADRAnsPayload) PowerACK() bool`. -/
def LinkADRAnsPayload.PowerACK (p : Nat) : Bool :=
  decide (p &&& (1 <<< 2) > 0)

/-! ## RX2SetupAnsPayload -/

/-- `func NewRX2SetupAnsPayload(channelACK, rx2DataRateACK, rx1DRoffsetACK bool) RX2SetupAnsPayload`. -/
def NewRX2SetupAnsPayload (channelACK rx2DataRateACK rx1DRoffsetACK : Bool) : Nat :=
  let p := 0
  let p := if channelACK then p ^^^ (1 <<< 0) else p
  let p := if rx2DataRateACK then p ^^^ (1 <<< 1) else p
  let p := if rx1DRoffsetACK then p ^^^ (1 <<< 2) else p
  p

/-- `func (p RX2SetupAnsPayload) ChannelACK() bool`. -/
def RX2SetupAnsPayload.ChannelACK (p : Nat) : Bool :=
  decide (p &&& (1 <<< 0) > 0)

/-- `func (p RX2SetupAnsPayload) RX2DataRateACK() bool`. -/
def RX2SetupAnsPayload.RX2DataRateACK (p : Nat) : Bool :=
  decide (p &&& (1 <<< 1) > 0)

/-- `func (p RX2SetupAnsPayload) RX1DRoffsetACK() bool`. -/
def RX2SetupAnsPayload.RX1DRoffsetACK (p : Nat) : Bool :=
  decide (p &&& (1 <<< 2) > 0)

/-! ## CID

The constants of the `const ( ... )` block of type `CID byte`. -/

/-- `LinkCheckReq CID = 0x02`. -/
def LinkCheckReq : Nat := 0x02
/-- `LinkCheckAns CID = 0x02`. -/
def LinkCheckAns : Nat := 0x02
/-- `LinkADRReq CID = 0x03`. -/
def LinkADRReq : Nat := 0x03
/-- `LinkADRAns CID = 0x03`. -/
def LinkADRAns : Nat := 0x03
/-- `DutyCycleReq CID = 0x04`. -/
def DutyCycleReq : Nat := 0x04
/-- `DutyCycleAns CID = 0x04`. -/
def DutyCycleAns : Nat := 0x04
/-- `RXParamSetupReq CID = 0x05`. -/
def RXParamSetupReq : Nat := 0x05
/-- `RXParamSetupAns CID = 0x05`. -/
def RXParamSetupAns : Nat := 0x05
/-- `DevStatusReq CID = 0x06`. -/
def DevStatusReq : Nat := 0x06
/-- `DevStatusAns CID = 0x06`. -/
def DevStatusAns : Nat := 0x06
/-- `NewChannelReq CID = 0x07`. -/
def NewChannelReq : Nat := 0x07
/-- `NewChannelAns CID = 0x07`. -/
def NewChannelAns : Nat := 0x07
/-- `RXTimingSetupReq CID = 0x08`. -/
def RXTimingSetupReq : Nat := 0x08
/-- `RXTimingSetupAns CID = 0x08`. -/
def RXTimingSetupAns : Nat := 0x08

/-! ## Reference readings used in the statements -/

/-- Number of set bits of a byte, as the sum of its eight binary digits. -/
def byteSetBits (x : Nat) : Nat :=
  ((List.range 8).map (fun i => x / 2 ^ i % 2)).sum

/-- Number of set bits of a 2-byte mask. -/
def ChMask.setBits (m : ChMask) : Nat :=
  byteSetBits m.b0 + byteSetBits m.b1

/-- The little-endian 24-bit integer held in the three bytes of a `Frequency`. -/
def Frequency.le24 (f : Frequency) : Nat :=
  f.b0 + 256 * f.b1 + 65536 * f.b2

/-! ## Theorems -/

/-! ### Auxiliary facts about `ChMask` -/

theorem land_one_shiftLeft_pos_iff (x b : Nat) :
    (x &&& (1 <<< b) > 0) ↔ x.testBit b = true := by
  rw [Nat.one_shiftLeft, Nat.and_two_pow]
  cases hx : x.testBit b
  · simp
  · simp [Nat.two_pow_pos]

theorem foldl_append_if (p : Nat → Bool) (f : Nat → Nat) (l : List Nat) :
    ∀ init : List Nat,
      l.foldl (fun acc c => if p c = true then acc ++ [f c] else acc) init
        = init ++ (l.filter p).map f := by
  induction l with
  | nil => intro init; simp
  | cons a t ih =>
    intro init
    rw [List.foldl_cons, ih]
    cases hp : p a <;> simp [List.filter_cons, hp]

theorem ChMask.Channels_step_eq (m : ChMask) :
    ChMask.Channels.step m
      = fun acc c => if m.bit c = true then acc ++ [c + 1] else acc := by
  funext acc c
  simp only [ChMask.Channels.step, ChMask.bit, land_one_shiftLeft_pos_iff]

/-- The loop of `Channels` lists, in increasing order, `k + 1` for every
`k < 16` whose bit is set. -/
theorem ChMask.Channels_eq_filter (m : ChMask) :
    m.Channels = ((List.range 16).filter m.bit).map (· + 1) := by
  unfold ChMask.Channels
  rw [ChMask.Channels_step_eq, foldl_append_if]
  simp

theorem ChMask.bit_assign (m : ChMask) (i v k : Nat) (hi : i < 2) :
    (m.assign i v).bit k = if k / 8 = i then v.testBit (k % 8) else m.bit k := by
  unfold ChMask.bit
  generalize k / 8 = j
  generalize k % 8 = r
  have hi01 : i = 0 ∨ i = 1 := by omega
  rcases hi01 with rfl | rfl
  · rcases j with _ | _ | j <;> simp [ChMask.assign, ChMask.index?]
  · rcases j with _ | _ | j <;> simp [ChMask.assign, ChMask.index?]

theorem ChMask.index?_of_lt (m : ChMask) (i : Nat) (hi : i < 2) :
    m.index? i = some ((m.index? i).getD 0) := by
  have hi01 : i = 0 ∨ i = 1 := by omega
  rcases hi01 with rfl | rfl <;> simp [ChMask.index?]

/-- One iteration of `NewChMask` on a channel number in `1..16`: no error, no
fault, and byte `(c-1) div 8` is combined with `1 << ((c-1) mod 8)` by xor. -/
theorem NewChMask.loop_cons_valid (mask : ChMask) (c : Nat) (rest : List Nat)
    (h1 : 1 ≤ c) (h16 : c ≤ 16) :
    NewChMask.loop mask (c :: rest)
      = NewChMask.loop
          (mask.assign ((c - 1) / 8)
            ((((mask.index? ((c - 1) / 8)).getD 0) ^^^ (1 <<< ((c - 1) % 8))) % 256)) rest := by
  have hsub : (c + 256 - 1) % 256 = c - 1 := by omega
  have hng : ¬ c > 16 := by omega
  have hidx := ChMask.index?_of_lt mask ((c - 1) / 8) (by omega)
  rw [NewChMask.loop]
  simp only [hng, if_false, hsub]
  rw [hidx]
  simp

/-- The bit of channel `k + 1` after one valid iteration is toggled exactly when
`k + 1` is the channel number processed. -/
theorem NewChMask.bit_after_step (mask : ChMask) (c k : Nat) (h1 : 1 ≤ c) (h16 : c ≤ 16) :
    (mask.assign ((c - 1) / 8)
        ((((mask.index? ((c - 1) / 8)).getD 0) ^^^ (1 <<< ((c - 1) % 8))) % 256)).bit k
      = xor (mask.bit k) (decide (k + 1 = c)) := by
  rw [ChMask.bit_assign _ _ _ _ (by omega)]
  by_cases hk : k / 8 = (c - 1) / 8
  · have hlt : k % 8 < 8 := Nat.mod_lt _ (by decide)
    have h256 : (256 : Nat) = 2 ^ 8 := by norm_num
    rw [if_pos hk, h256, Nat.testBit_mod_two_pow, Nat.testBit_xor, Nat.one_shiftLeft,
      Nat.testBit_two_pow]
    simp only [hlt, decide_True, Bool.true_and]
    have hbit : mask.bit k = ((mask.index? ((c - 1) / 8)).getD 0).testBit (k % 8) := by
      unfold ChMask.bit; rw [hk]
    rw [hbit]
    have hiff : ((c - 1) % 8 = k % 8) ↔ (k + 1 = c) := by omega
    simp only [hiff]
  · rw [if_neg hk]
    have hne : ¬ (k + 1 = c) := by
      intro h; apply hk; subst h; simp
    simp [hne]

/-- On channel numbers in `1..16` the loop of `NewChMask` ends with a nil error,
and the bit of channel `k + 1` has been toggled once per occurrence of `k + 1`. -/
theorem NewChMask.loop_bits (l : List Nat) :
    ∀ mask : ChMask, (∀ c ∈ l, 1 ≤ c ∧ c ≤ 16) →
      ∃ mask', NewChMask.loop mask l = .ok mask' ∧
        ∀ k, mask'.bit k = xor (mask.bit k) (decide (l.count (k + 1) % 2 = 1)) := by
  induction l with
  | nil =>
    intro mask _
    exact ⟨mask, by simp [NewChMask.loop], by intro k; simp⟩
  | cons c rest ih =>
    intro mask hr
    have hc := hr c (List.mem_cons_self _ _)
    obtain ⟨mask', hloop, hbits⟩ := ih
      (mask.assign ((c - 1) / 8)
        ((((mask.index? ((c - 1) / 8)).getD 0) ^^^ (1 <<< ((c - 1) % 8))) % 256))
      (fun x hx => hr x (List.mem_cons_of_mem _ hx))
    refine ⟨mask', ?_, ?_⟩
    · rw [NewChMask.loop_cons_valid mask c rest hc.1 hc.2, hloop]
    · intro k
      rw [hbits k, NewChMask.bit_after_step mask c k hc.1 hc.2, List.count_cons]
      by_cases hkc : k + 1 = c
      · subst hkc
        rcases Nat.mod_two_eq_zero_or_one (List.count (k + 1) rest) with h0 | h0
        · have h1 : (List.count (k + 1) rest + 1) % 2 = 1 := by omega
          cases mask.bit k <;> simp [h0, h1]
        · have h1 : (List.count (k + 1) rest + 1) % 2 = 0 := by omega
          cases mask.bit k <;> simp [h0, h1]
      · have hck : ¬ (c = k + 1) := fun h => hkc h.symm
        cases mask.bit k <;> simp [hkc, hck]

theorem ChMask.zero_bit (k : Nat) : ChMask.zero.bit k = false := by
  unfold ChMask.bit ChMask.zero
  rcases k / 8 with _ | _ | j <;> simp [ChMask.index?]


/-- For pairwise distinct channel numbers in `1..16`, `NewChMask` returns a mask
with a nil error in which the bit of channel `k + 1` is set exactly when `k + 1`
was supplied. -/
theorem NewChMask.bits_of_nodup (chans : List Nat) (hnd : chans.Nodup)
    (hr : ∀ c ∈ chans, 1 ≤ c ∧ c ≤ 16) :
    ∃ mask, NewChMask chans = .ok mask ∧ ∀ k, mask.bit k = decide (k + 1 ∈ chans) := by
  obtain ⟨mask, hloop, hbits⟩ := NewChMask.loop_bits chans ChMask.zero hr
  refine ⟨mask, hloop, ?_⟩
  intro k
  rw [hbits k, ChMask.zero_bit]
  by_cases hm : k + 1 ∈ chans
  · simp [List.count_eq_one_of_mem hnd hm, hm]
  · simp [List.count_eq_zero_of_not_mem hm, hm]

/-- The result of `Channels` is strictly increasing. -/
theorem ChMask.Channels_sorted (m : ChMask) : (m.Channels).Sorted (· < ·) := by
  rw [ChMask.Channels_eq_filter]
  have hrange : (List.range 16).Pairwise (· < ·) := List.pairwise_lt_range 16
  have hfilter : ((List.range 16).filter m.bit).Pairwise (· < ·) := hrange.filter _
  exact (List.pairwise_map).2 (hfilter.imp (fun h => Nat.add_lt_add_right h 1))

/-- A number is listed by `Channels` exactly when it is `k + 1` for a set bit `k < 16`. -/
theorem ChMask.mem_Channels (m : ChMask) (x : Nat) :
    x ∈ m.Channels ↔ ∃ k, k < 16 ∧ m.bit k = true ∧ k + 1 = x := by
  rw [ChMask.Channels_eq_filter]
  simp [List.mem_map, List.mem_filter, List.mem_range, and_assoc]

/-- Lists without the channel number 0 that hold a channel number above 16 make
the loop of `NewChMask` return an error. -/
theorem NewChMask.loop_error_of_gt (l : List Nat) :
    ∀ mask : ChMask, (∀ c ∈ l, 1 ≤ c) → (∃ c ∈ l, c > 16) →
      (NewChMask.loop mask l).isError = true := by
  induction l with
  | nil => intro mask _ hex; obtain ⟨c, hc, _⟩ := hex; cases hc
  | cons c rest ih =>
    intro mask hpos hex
    by_cases hgt : c > 16
    · simp [NewChMask.loop, hgt, Result.isError]
    · have h1 : 1 ≤ c := hpos c (List.mem_cons_self _ _)
      rw [NewChMask.loop_cons_valid mask c rest h1 (by omega)]
      apply ih
      · exact fun x hx => hpos x (List.mem_cons_of_mem _ hx)
      · obtain ⟨x, hx, hx16⟩ := hex
        rcases List.mem_cons.1 hx with rfl | hx'
        · exact absurd hx16 hgt
        · exact ⟨x, hx', hx16⟩

/-! ### Auxiliary facts about counting, masks and little-endian bytes -/

theorem length_filter_eq_sum (p : Nat → Bool) (l : List Nat) :
    (l.filter p).length = (l.map (fun k => (p k).toNat)).sum := by
  induction l with
  | nil => simp
  | cons a t ih =>
    cases hp : p a <;> simp [List.filter_cons, hp, ih]
    omega

theorem ChMask.bit_toNat_low (m : ChMask) (k : Nat) (hk : k < 8) :
    (m.bit k).toNat = m.b0 / 2 ^ k % 2 := by
  have h8 : k / 8 = 0 := by omega
  have hm : k % 8 = k := by omega
  simp [ChMask.bit, ChMask.index?, h8, hm, Nat.toNat_testBit]

theorem ChMask.bit_toNat_high (m : ChMask) (k : Nat) (hk : k < 8) :
    (m.bit (k + 8)).toNat = m.b1 / 2 ^ k % 2 := by
  have h8 : (k + 8) / 8 = 1 := by omega
  have hm : (k + 8) % 8 = k := by omega
  simp [ChMask.bit, ChMask.index?, h8, hm, Nat.toNat_testBit]

/-- The number of channels listed by `Channels` is the number of set bits. -/
theorem ChMask.Channels_length (m : ChMask) : m.Channels.length = m.setBits := by
  rw [ChMask.Channels_eq_filter, List.length_map, length_filter_eq_sum]
  have hrange : List.range 16 = [0, 1, 2, 3, 4, 5, 6, 7,
      0 + 8, 1 + 8, 2 + 8, 3 + 8, 4 + 8, 5 + 8, 6 + 8, 7 + 8] := by decide
  have hrange8 : List.range 8 = [0, 1, 2, 3, 4, 5, 6, 7] := by decide
  rw [hrange]
  simp only [ChMask.setBits, byteSetBits, hrange8, List.map_cons, List.map_nil, List.sum_cons,
    List.sum_nil]
  rw [ChMask.bit_toNat_low m 0 (by decide), ChMask.bit_toNat_low m 1 (by decide),
    ChMask.bit_toNat_low m 2 (by decide), ChMask.bit_toNat_low m 3 (by decide),
    ChMask.bit_toNat_low m 4 (by decide), ChMask.bit_toNat_low m 5 (by decide),
    ChMask.bit_toNat_low m 6 (by decide), ChMask.bit_toNat_low m 7 (by decide),
    ChMask.bit_toNat_high m 0 (by decide), ChMask.bit_toNat_high m 1 (by decide),
    ChMask.bit_toNat_high m 2 (by decide), ChMask.bit_toNat_high m 3 (by decide),
    ChMask.bit_toNat_high m 4 (by decide), ChMask.bit_toNat_high m 5 (by decide),
    ChMask.bit_toNat_high m 6 (by decide), ChMask.bit_toNat_high m 7 (by decide)]
  omega

theorem or_shiftLeft_eq_add (a b i : Nat) (h : a < 2 ^ i) :
    a ||| (b <<< i) = a + 2 ^ i * b := by
  rw [Nat.shiftLeft_eq, Nat.or_comm, Nat.mul_comm b, ← Nat.mul_add_lt_is_or h]
  omega

/-- `Uint32` reads the three bytes of a `Frequency` as a little-endian integer. -/
theorem Frequency.Uint32_eq_le24 (f : Frequency)
    (h0 : f.b0 < 256) (h1 : f.b1 < 256) :
    f.Uint32 = f.le24 := by
  have hunfold : f.Uint32 = f.b0 ||| (f.b1 <<< 8) ||| (f.b2 <<< 16) ||| (0 <<< 24) := by
    simp [Frequency.Uint32, Frequency.toList, LittleEndian.Uint32, List.enum, List.enumFrom]
  rw [hunfold, Nat.zero_shiftLeft, Nat.or_zero, or_shiftLeft_eq_add f.b0 f.b1 8 (by omega),
    or_shiftLeft_eq_add _ f.b2 16 (by omega)]
  unfold Frequency.le24
  omega

/-- Every argument accepted by `NewFrequency` is stored as its own low byte
followed by two zero bytes. -/
theorem NewFrequency.ok_value (x : Nat) (fr : Frequency) (hok : NewFrequency x = .ok fr) :
    x < 256 ∧ fr = ⟨x, 0, 0⟩ := by
  have hlt : x < 26 := by
    by_cases hge : x ≥ NewFrequency.bound
    · simp [NewFrequency, hge] at hok
    · have hb : NewFrequency.bound = 26 := by decide
      omega
  have hall : ∀ y < 26, NewFrequency y = .ok ⟨y, 0, 0⟩ := by decide
  rw [hall x hlt] at hok
  injection hok with hfr
  exact ⟨by omega, hfr.symm⟩

theorem Redundacy.ChMaskCntl_eq (r : Nat) : Redundacy.ChMaskCntl r = r / 16 % 8 := by
  have hmask : (1 <<< 6) ^^^ (1 <<< 5) ^^^ (1 <<< 4) = (2 ^ 3 - 1) <<< 4 := by decide
  have h16 : r / 16 = r >>> 4 := by rw [Nat.shiftRight_eq_div_pow]
  have h8 : (8 : Nat) = 2 ^ 3 := by decide
  unfold Redundacy.ChMaskCntl
  simp only [hmask]
  rw [h16, h8]
  apply Nat.eq_of_testBit_eq
  intro i
  rw [Nat.testBit_shiftRight, Nat.testBit_and, Nat.testBit_shiftLeft,
    Nat.testBit_two_pow_sub_one, Nat.testBit_mod_two_pow, Nat.testBit_shiftRight]
  have hge : 4 + i ≥ 4 := by omega
  have hsub : 4 + i - 4 = i := by omega
  simp only [hge, hsub, decide_True, Bool.true_and]
  exact Bool.and_comm _ _

theorem Redundacy.NbRep_eq (r : Nat) : Redundacy.NbRep r = r % 16 := by
  have hmask : (1 <<< 3) ^^^ (1 <<< 2) ^^^ (1 <<< 1) ^^^ (1 <<< 0) = 2 ^ 4 - 1 := by decide
  have h16 : (16 : Nat) = 2 ^ 4 := by decide
  unfold Redundacy.NbRep
  simp only [hmask]
  rw [h16, Nat.and_pow_two_sub_one_eq_mod]

/-! ### Auxiliary facts about masks as sets of bits -/

theorem ChMask.bit_low (m : ChMask) (k : Nat) (hk : k < 8) :
    m.bit k = m.b0.testBit k := by
  have h8 : k / 8 = 0 := by omega
  have hm : k % 8 = k := by omega
  simp [ChMask.bit, ChMask.index?, h8, hm]

theorem ChMask.bit_high (m : ChMask) (k : Nat) (hk : k < 8) :
    m.bit (k + 8) = m.b1.testBit k := by
  have h8 : (k + 8) / 8 = 1 := by omega
  have hm : (k + 8) % 8 = k := by omega
  simp [ChMask.bit, ChMask.index?, h8, hm]

theorem testBit_byte_high (x i : Nat) (hx : x < 256) (hi : 8 ≤ i) : x.testBit i = false := by
  apply Nat.testBit_lt_two_pow
  calc x < 2 ^ 8 := by omega
    _ ≤ 2 ^ i := Nat.pow_le_pow_right (by decide) hi

/-- Two masks of bytes that agree on the sixteen channel bits are equal. -/
theorem ChMask.ext_of_bits (m m' : ChMask)
    (h0 : m.b0 < 256) (h1 : m.b1 < 256) (h0' : m'.b0 < 256) (h1' : m'.b1 < 256)
    (hbits : ∀ k, k < 16 → m.bit k = m'.bit k) : m = m' := by
  have e0 : m.b0 = m'.b0 := by
    apply Nat.eq_of_testBit_eq
    intro i
    by_cases hi : i < 8
    · rw [← ChMask.bit_low m i hi, ← ChMask.bit_low m' i hi]
      exact hbits i (by omega)
    · rw [testBit_byte_high _ i h0 (by omega), testBit_byte_high _ i h0' (by omega)]
  have e1 : m.b1 = m'.b1 := by
    apply Nat.eq_of_testBit_eq
    intro i
    by_cases hi : i < 8
    · rw [← ChMask.bit_high m i hi, ← ChMask.bit_high m' i hi]
      exact hbits (i + 8) (by omega)
    · rw [testBit_byte_high _ i h1 (by omega), testBit_byte_high _ i h1' (by omega)]
  cases m
  cases m'
  simp only at e0 e1
  rw [e0, e1]

theorem ChMask.assign_bytes_lt (m : ChMask) (i v : Nat)
    (h0 : m.b0 < 256) (h1 : m.b1 < 256) :
    (m.assign i (v % 256)).b0 < 256 ∧ (m.assign i (v % 256)).b1 < 256 := by
  have hv : v % 256 < 256 := Nat.mod_lt _ (by decide)
  rcases i with _ | _ | i <;> simp [ChMask.assign, h0, h1, hv]

/-- The loop of `NewChMask`, started on a mask of bytes with channel numbers in
`1..16`, ends on a mask of bytes. -/
theorem NewChMask.loop_bytes_lt (l : List Nat) :
    ∀ mask mask' : ChMask, (∀ c ∈ l, 1 ≤ c ∧ c ≤ 16) → mask.b0 < 256 → mask.b1 < 256 →
      NewChMask.loop mask l = .ok mask' → mask'.b0 < 256 ∧ mask'.b1 < 256 := by
  induction l with
  | nil =>
    intro mask mask' _ h0 h1 hok
    simp only [NewChMask.loop] at hok
    injection hok with hm
    subst hm
    exact ⟨h0, h1⟩
  | cons c rest ih =>
    intro mask mask' hr h0 h1 hok
    have hc := hr c (List.mem_cons_self _ _)
    rw [NewChMask.loop_cons_valid mask c rest hc.1 hc.2] at hok
    have hb := ChMask.assign_bytes_lt mask ((c - 1) / 8)
      (((mask.index? ((c - 1) / 8)).getD 0) ^^^ (1 <<< ((c - 1) % 8))) h0 h1
    exact ih _ mask' (fun x hx => hr x (List.mem_cons_of_mem _ hx)) hb.1 hb.2 hok

/-- Without the channel number 0 the loop of `NewChMask` never faults. -/
theorem NewChMask.loop_no_fault_of_pos (l : List Nat) :
    ∀ mask : ChMask, (∀ c ∈ l, 1 ≤ c) → NewChMask.loop mask l ≠ .crash := by
  induction l with
  | nil => intro mask _ h; simp [NewChMask.loop] at h
  | cons c rest ih =>
    intro mask hpos
    by_cases hgt : c > 16
    · simp [NewChMask.loop, hgt]
    · rw [NewChMask.loop_cons_valid mask c rest (hpos c (List.mem_cons_self _ _)) (by omega)]
      exact ih _ (fun x hx => hpos x (List.mem_cons_of_mem _ hx))

theorem sum_filter_map_eq (p : Nat → Bool) (f : Nat → Nat) (l : List Nat) :
    ((l.filter p).map f).sum = (l.map (fun k => (p k).toNat * f k)).sum := by
  induction l with
  | nil => simp
  | cons a t ih =>
    cases hp : p a <;> simp [List.filter_cons, hp, ih]

theorem byte_eq_sum_digits (x : Nat) (hx : x < 256) :
    x = x / 1 % 2 * 1 + x / 2 % 2 * 2 + x / 4 % 2 * 4 + x / 8 % 2 * 8 + x / 16 % 2 * 16
      + x / 32 % 2 * 32 + x / 64 % 2 * 64 + x / 128 % 2 * 128 := by
  omega

/-- A mask of bytes, read as a little-endian 16-bit integer, is the sum of `2^k`
over its set bits `k`. -/
theorem ChMask.value_eq_sum_bits (m : ChMask) (h0 : m.b0 < 256) (h1 : m.b1 < 256) :
    m.b0 + 256 * m.b1 = ((List.range 16).map (fun k => (m.bit k).toNat * 2 ^ k)).sum := by
  have hrange : List.range 16 = [0, 1, 2, 3, 4, 5, 6, 7,
      0 + 8, 1 + 8, 2 + 8, 3 + 8, 4 + 8, 5 + 8, 6 + 8, 7 + 8] := by decide
  rw [hrange]
  simp only [List.map_cons, List.map_nil, List.sum_cons, List.sum_nil]
  rw [ChMask.bit_toNat_low m 0 (by decide), ChMask.bit_toNat_low m 1 (by decide),
    ChMask.bit_toNat_low m 2 (by decide), ChMask.bit_toNat_low m 3 (by decide),
    ChMask.bit_toNat_low m 4 (by decide), ChMask.bit_toNat_low m 5 (by decide),
    ChMask.bit_toNat_low m 6 (by decide), ChMask.bit_toNat_low m 7 (by decide),
    ChMask.bit_toNat_high m 0 (by decide), ChMask.bit_toNat_high m 1 (by decide),
    ChMask.bit_toNat_high m 2 (by decide), ChMask.bit_toNat_high m 3 (by decide),
    ChMask.bit_toNat_high m 4 (by decide), ChMask.bit_toNat_high m 5 (by decide),
    ChMask.bit_toNat_high m 6 (by decide), ChMask.bit_toNat_high m 7 (by decide)]
  have e0 := byte_eq_sum_digits m.b0 h0
  have e1 := byte_eq_sum_digits m.b1 h1
  norm_num
  omega

/-- A duplicate-free list of channel numbers in `1..16` is a rearrangement of
the numbers `k + 1`, `k < 16`, that it holds. -/
theorem range_filter_perm (l : List Nat) (hnd : l.Nodup) (hr : ∀ c ∈ l, 1 ≤ c ∧ c ≤ 16) :
    (((List.range 16).filter (fun k => decide (k + 1 ∈ l))).map (· + 1)).Perm l := by
  have hnodup : (((List.range 16).filter (fun k => decide (k + 1 ∈ l))).map (· + 1)).Nodup := by
    apply List.Nodup.map
    · intro a b hab
      exact Nat.add_right_cancel hab
    · exact (List.nodup_range 16).filter _
  apply (List.perm_ext_iff_of_nodup hnodup hnd).2
  intro x
  simp only [List.mem_map, List.mem_filter, List.mem_range, decide_eq_true_eq]
  constructor
  · rintro ⟨k, ⟨_, hk⟩, rfl⟩
    exact hk
  · intro hx
    have hx16 := hr x hx
    have hx1 : x - 1 + 1 = x := by omega
    exact ⟨x - 1, ⟨by omega, by rw [hx1]; exact hx⟩, hx1⟩

/-- For pairwise distinct channel numbers in `1..16` the mask returned by
`NewChMask`, read as a little-endian 16-bit integer, is the sum of `2^(c-1)`. -/
theorem NewChMask.value_of_nodup (chans : List Nat) (hnd : chans.Nodup)
    (hr : ∀ c ∈ chans, 1 ≤ c ∧ c ≤ 16) :
    ∃ mask, NewChMask chans = .ok mask ∧
      mask.b0 + 256 * mask.b1 = (chans.map (fun c => 2 ^ (c - 1))).sum := by
  obtain ⟨mask, hok, hbits⟩ := NewChMask.bits_of_nodup chans hnd hr
  refine ⟨mask, hok, ?_⟩
  have hbytes := NewChMask.loop_bytes_lt chans ChMask.zero mask hr (by decide) (by decide) hok
  rw [ChMask.value_eq_sum_bits mask hbytes.1 hbytes.2]
  have hperm := (range_filter_perm chans hnd hr).map (fun c => 2 ^ (c - 1))
  rw [← hperm.sum_eq, List.map_map, sum_filter_map_eq]
  congr 1
  apply List.map_congr_left
  intro k _
  simp [hbits k]

/-! ### Auxiliary facts about the packed bytes -/

theorem DataRateTXPower.DataRate_eq (d : Nat) : DataRateTXPower.DataRate d = d / 16 := by
  unfold DataRateTXPower.DataRate
  rw [Nat.shiftRight_eq_div_pow]

theorem DataRateTXPower.TXPower_eq (d : Nat) : DataRateTXPower.TXPower d = d % 16 :=
  Redundacy.NbRep_eq d

theorem DLsettings.RX2DataRate_eq (s : Nat) : DLsettings.RX2DataRate s = s % 16 :=
  Redundacy.NbRep_eq s

theorem DLsettings.RX1DRoffset_eq (s : Nat) : DLsettings.RX1DRoffset s = s / 16 % 8 :=
  Redundacy.ChMaskCntl_eq s

theorem NewDataRateTXPower.value_of_args_le (dataRate txPower : Nat)
    (hd : dataRate ≤ 15) (ht : txPower ≤ 15) :
    NewDataRateTXPower dataRate txPower = .ok (16 * dataRate + txPower) := by
  have hstep : ∀ r < 16, ∀ t < 16, NewDataRateTXPower r t = .ok (16 * r + t) := by decide
  exact hstep dataRate (by omega) txPower (by omega)

theorem NewDLsettings.byte_of_args_le (rx2DataRate rx1DRoffset : Nat)
    (hr : rx2DataRate ≤ 15) (ho : rx1DRoffset ≤ 7) :
    NewDLsettings rx2DataRate rx1DRoffset = .ok (16 * rx1DRoffset + rx2DataRate) := by
  have hstep : ∀ r < 16, ∀ o < 8, NewDLsettings r o = .ok (16 * o + r) := by decide
  exact hstep rx2DataRate (by omega) rx1DRoffset (by omega)

/-- A run of channel numbers in `1..16` at the front of the arguments is
processed without error or fault, whatever follows. -/
theorem NewChMask.loop_append_valid (pre : List Nat) :
    ∀ mask : ChMask, (∀ c ∈ pre, 1 ≤ c ∧ c ≤ 16) →
      ∃ mask', NewChMask.loop mask pre = .ok mask' ∧
        ∀ l, NewChMask.loop mask (pre ++ l) = NewChMask.loop mask' l := by
  induction pre with
  | nil => intro mask _; exact ⟨mask, by simp [NewChMask.loop], by intro l; simp⟩
  | cons c rest ih =>
    intro mask hr
    have hc := hr c (List.mem_cons_self _ _)
    obtain ⟨mask', hok, happ⟩ := ih
      (mask.assign ((c - 1) / 8)
        ((((mask.index? ((c - 1) / 8)).getD 0) ^^^ (1 <<< ((c - 1) % 8))) % 256))
      (fun x hx => hr x (List.mem_cons_of_mem _ hx))
    refine ⟨mask', ?_, ?_⟩
    · rw [NewChMask.loop_cons_valid mask c rest hc.1 hc.2, hok]
    · intro l
      rw [List.cons_append, NewChMask.loop_cons_valid mask c (rest ++ l) hc.1 hc.2, happ l]

/-! ### The claims -/

/-- Claim C1 (evaluation of the code at the failing input): `NewChMask(1, 1)`
returns the zero mask with a nil error, and `Channels()` of that mask is empty,
so the supplied channel number 1 does not appear in the result. -/
theorem C1_NewChMask_duplicate_channel_lost :
    NewChMask [1, 1] = .ok ⟨0, 0⟩ ∧ ChMask.Channels ⟨0, 0⟩ = [] ∧
      1 ∉ ChMask.Channels ⟨0, 0⟩ := by
  decide

/-- Claim C5 (evaluation of the code at the failing input): `NewChMask(0, 17)`
holds the channel number 17 > 16 and yet returns no error, because channel
number 0 wraps to 255 in uint8 and `mask[31]` is a run-time fault before 17 is
looked at. -/
theorem C5_NewChMask_zero_then_17_faults :
    (∃ c ∈ [0, 17], c > 16) ∧ NewChMask [0, 17] = .crash ∧
      (NewChMask [0, 17]).isError = false := by
  decide

/-- Claim C6: for pairwise distinct channel numbers, each in `1..16`,
`NewChMask` returns a mask with a nil error, and `Channels()` of that mask is
the input list sorted in increasing order. -/
theorem C6_NewChMask_Channels_sorted_input (chans : List Nat) (hnd : chans.Nodup)
    (hr : ∀ c ∈ chans, 1 ≤ c ∧ c ≤ 16) :
    ∃ mask, NewChMask chans = .ok mask ∧
      mask.Channels = chans.insertionSort (· ≤ ·) := by
  obtain ⟨mask, hok, hbits⟩ := NewChMask.bits_of_nodup chans hnd hr
  refine ⟨mask, hok, ?_⟩
  have hmem : ∀ x, x ∈ mask.Channels ↔ x ∈ chans := by
    intro x
    rw [ChMask.mem_Channels]
    constructor
    · rintro ⟨k, _, hk, rfl⟩
      rw [hbits k] at hk
      exact of_decide_eq_true hk
    · intro hx
      have hx16 := hr x hx
      refine ⟨x - 1, by omega, ?_, by omega⟩
      rw [hbits (x - 1)]
      have hx1 : x - 1 + 1 = x := by omega
      rw [hx1]
      exact decide_eq_true hx
  have hsortedLt := ChMask.Channels_sorted mask
  have hnodup : mask.Channels.Nodup := hsortedLt.imp (fun h => Nat.ne_of_lt h)
  have hperm : mask.Channels.Perm (chans.insertionSort (· ≤ ·)) :=
    ((List.perm_ext_iff_of_nodup hnodup hnd).2 hmem).trans
      (List.perm_insertionSort (· ≤ ·) chans).symm
  have hsortedLe : mask.Channels.Sorted (· ≤ ·) := hsortedLt.imp (fun h => Nat.le_of_lt h)
  exact List.eq_of_perm_of_sorted hperm hsortedLe (List.sorted_insertionSort (· ≤ ·) chans)

/-- Witness for C6 at `NewChMask(1, 5, 7, 11)`, the call of the repository's test. -/
theorem C6_NewChMask_Channels_sorted_input_witness :
    [1, 5, 7, 11].Nodup ∧ (∀ c ∈ [1, 5, 7, 11], 1 ≤ c ∧ c ≤ 16) ∧
      ∃ mask, NewChMask [1, 5, 7, 11] = .ok mask ∧ mask.Channels = [1, 5, 7, 11] :=
  ⟨by decide, by decide,
    C6_NewChMask_Channels_sorted_input [1, 5, 7, 11] (by decide) (by decide)⟩

/-- Claim C2 (evaluation of the code at the failing input): `NewFrequency(26)`
returns an error although 26 is far below the 24-bit bound `2^24 = 16777216`,
because the guard compares with `2 xor 24 = 26`. -/
theorem C2_NewFrequency_rejects_26 :
    NewFrequency.bound = 26 ∧ 26 < 2 ^ 24 ∧
      NewFrequency 26 = .error Frequency.zero "lorawan: max value for frequency is 2^24-1" := by
  decide

/-- Claim C3 (evaluation of the code at the failing input): for `f = 26 < 2^24`
the call `NewFrequency(f)` does not succeed, so no Frequency holding the three
low-order bytes of `f` is returned. -/
theorem C3_NewFrequency_26_not_ok :
    26 < 2 ^ 24 ∧ (NewFrequency 26).isOk = false ∧
      ∀ fr : Frequency, NewFrequency 26 ≠ .ok fr := by
  refine ⟨by decide, by decide, ?_⟩
  intro fr h
  have h26 : NewFrequency 26 = .error Frequency.zero "lorawan: max value for frequency is 2^24-1" := by
    decide
  rw [h26] at h
  cases h

/-- Claim C4: for every uint8 `maxDCycle`, `NewDutyCycleReqPayload` returns an
error exactly when `16 ≤ maxDCycle ≤ 254`, that is exactly when `maxDCycle` is
outside `{0..15} ∪ {255}`; otherwise it returns `maxDCycle` itself with a nil
error; and on uint8 the source guard `> 15 && < 255` agrees with the intended
guard `> 15 && != 255`. -/
theorem C4_NewDutyCycleReqPayload_error_iff (maxDCycle : Nat) (h8 : maxDCycle < 256) :
    ((NewDutyCycleReqPayload maxDCycle).isError = true ↔ 16 ≤ maxDCycle ∧ maxDCycle ≤ 254) ∧
    ((NewDutyCycleReqPayload maxDCycle).isError = true ↔ ¬ (maxDCycle ≤ 15 ∨ maxDCycle = 255)) ∧
    ((maxDCycle ≤ 15 ∨ maxDCycle = 255) → NewDutyCycleReqPayload maxDCycle = .ok maxDCycle) ∧
    NewDutyCycleReqPayload.guard maxDCycle = NewDutyCycleReqPayload.guardIntended maxDCycle := by
  have hne : maxDCycle ≠ 255 ↔ maxDCycle < 255 := by omega
  by_cases h1 : maxDCycle > 15 <;> by_cases h2 : maxDCycle < 255 <;>
    simp [NewDutyCycleReqPayload, NewDutyCycleReqPayload.guard,
      NewDutyCycleReqPayload.guardIntended, Result.isError, h1, h2, hne] <;>
    omega

/-- Witness for C4 at `maxDCycle = 14`, the value of the repository's test. -/
theorem C4_NewDutyCycleReqPayload_error_iff_witness :
    (14 < 256) ∧
    (((NewDutyCycleReqPayload 14).isError = true ↔ 16 ≤ 14 ∧ 14 ≤ 254) ∧
     ((NewDutyCycleReqPayload 14).isError = true ↔ ¬ (14 ≤ 15 ∨ 14 = 255)) ∧
     ((14 ≤ 15 ∨ 14 = 255) → NewDutyCycleReqPayload 14 = .ok 14) ∧
     NewDutyCycleReqPayload.guard 14 = NewDutyCycleReqPayload.guardIntended 14) :=
  ⟨by decide, C4_NewDutyCycleReqPayload_error_iff 14 (by decide)⟩

/-- Claim C7: `NewRedundacy(chMaskCntl, nbRep)` returns an error exactly when
`chMaskCntl > 7` or `nbRep > 15`, and returns with a nil error otherwise;
`(7, 15)` is accepted, `(8, 0)` and `(0, 16)` are rejected. -/
theorem C7_NewRedundacy_error_iff (chMaskCntl nbRep : Nat) :
    ((NewRedundacy chMaskCntl nbRep).isError = true ↔ (chMaskCntl > 7 ∨ nbRep > 15)) ∧
    ((NewRedundacy chMaskCntl nbRep).isOk = true ↔ (chMaskCntl ≤ 7 ∧ nbRep ≤ 15)) ∧
    (NewRedundacy 7 15).isOk = true ∧
    (NewRedundacy 8 0).isError = true ∧
    (NewRedundacy 0 16).isError = true := by
  refine ⟨?_, ?_, by decide, by decide, by decide⟩
  · unfold NewRedundacy
    by_cases hc : chMaskCntl > 7
    · simp [hc, Result.isError]
    · by_cases hn : nbRep > 15
      · simp [hc, hn, Result.isError]
      · simp [hc, hn, Result.isError]
  · unfold NewRedundacy
    by_cases hc : chMaskCntl > 7
    · simp [hc, Result.isOk]
    · by_cases hn : nbRep > 15
      · simp [hc, hn, Result.isOk]
      · simp [hc, hn, Result.isOk]
        omega

/-- Claim C8: for `chMaskCntl ≤ 7` and `nbRep ≤ 15`, `NewRedundacy` returns a
Redundacy `r` with a nil error such that `r.ChMaskCntl() = chMaskCntl` and
`r.NbRep() = nbRep`. -/
theorem C8_NewRedundacy_accessors (chMaskCntl nbRep : Nat)
    (hc : chMaskCntl ≤ 7) (hn : nbRep ≤ 15) :
    ∃ r, NewRedundacy chMaskCntl nbRep = .ok r ∧
      Redundacy.ChMaskCntl r = chMaskCntl ∧ Redundacy.NbRep r = nbRep := by
  have hstep : ∀ c < 8, ∀ n < 16,
      (NewRedundacy c n = .ok (((c <<< 4) % 256) ^^^ n) ∧
        Redundacy.ChMaskCntl (((c <<< 4) % 256) ^^^ n) = c ∧
        Redundacy.NbRep (((c <<< 4) % 256) ^^^ n) = n) := by
    decide
  exact ⟨_, hstep chMaskCntl (by omega) nbRep (by omega)⟩

/-- Witness for C8 at `NewRedundacy(5, 11)`, the call of the repository's test. -/
theorem C8_NewRedundacy_accessors_witness :
    5 ≤ 7 ∧ 11 ≤ 15 ∧
      ∃ r, NewRedundacy 5 11 = .ok r ∧ Redundacy.ChMaskCntl r = 5 ∧ Redundacy.NbRep r = 11 :=
  ⟨by decide, by decide, C8_NewRedundacy_accessors 5 11 (by decide) (by decide)⟩

/-- Claim C9: `NewDataRateTXPower(dataRate, txPower)` returns an error exactly
when `dataRate > 15` or `txPower > 15`, and returns with a nil error otherwise;
`(15, 15)` is accepted, `(16, 0)` and `(0, 16)` are rejected. -/
theorem C9_NewDataRateTXPower_error_iff (dataRate txPower : Nat) :
    ((NewDataRateTXPower dataRate txPower).isError = true ↔ (dataRate > 15 ∨ txPower > 15)) ∧
    ((NewDataRateTXPower dataRate txPower).isOk = true ↔ (dataRate ≤ 15 ∧ txPower ≤ 15)) ∧
    (NewDataRateTXPower 15 15).isOk = true ∧
    (NewDataRateTXPower 16 0).isError = true ∧
    (NewDataRateTXPower 0 16).isError = true := by
  refine ⟨?_, ?_, by decide, by decide, by decide⟩
  · unfold NewDataRateTXPower
    by_cases hd : dataRate > 15
    · simp [hd, Result.isError]
    · by_cases ht : txPower > 15
      · simp [hd, ht, Result.isError]
      · simp [hd, ht, Result.isError]
  · unfold NewDataRateTXPower
    by_cases hd : dataRate > 15
    · simp [hd, Result.isOk]
    · by_cases ht : txPower > 15
      · simp [hd, ht, Result.isOk]
      · simp [hd, ht, Result.isOk]
        omega

/-- Claim C10: for `dataRate ≤ 15` and `txPower ≤ 15`, `NewDataRateTXPower`
returns a value `d` with a nil error such that `d.DataRate() = dataRate` and
`d.TXPower() = txPower`. -/
theorem C10_NewDataRateTXPower_accessors (dataRate txPower : Nat)
    (hd : dataRate ≤ 15) (ht : txPower ≤ 15) :
    ∃ d, NewDataRateTXPower dataRate txPower = .ok d ∧
      DataRateTXPower.DataRate d = dataRate ∧ DataRateTXPower.TXPower d = txPower := by
  have hstep : ∀ r < 16, ∀ t < 16,
      (NewDataRateTXPower r t = .ok (((r <<< 4) % 256) ^^^ t) ∧
        DataRateTXPower.DataRate (((r <<< 4) % 256) ^^^ t) = r ∧
        DataRateTXPower.TXPower (((r <<< 4) % 256) ^^^ t) = t) := by
    decide
  exact ⟨_, hstep dataRate (by omega) txPower (by omega)⟩

/-- Witness for C10 at `NewDataRateTXPower(11, 14)`, the call of the repository's test. -/
theorem C10_NewDataRateTXPower_accessors_witness :
    11 ≤ 15 ∧ 14 ≤ 15 ∧
      ∃ d, NewDataRateTXPower 11 14 = .ok d ∧
        DataRateTXPower.DataRate d = 11 ∧ DataRateTXPower.TXPower d = 14 :=
  ⟨by decide, by decide, C10_NewDataRateTXPower_accessors 11 14 (by decide) (by decide)⟩

/-- Claim C11: `NewDLsettings(rx2DataRate, rx1DRoffset)` returns an error exactly
when `rx2DataRate > 15` or `rx1DRoffset > 7`, and returns with a nil error
otherwise; `(15, 7)` is accepted, `(16, 0)` and `(0, 8)` are rejected. -/
theorem C11_NewDLsettings_error_iff (rx2DataRate rx1DRoffset : Nat) :
    ((NewDLsettings rx2DataRate rx1DRoffset).isError = true ↔
      (rx2DataRate > 15 ∨ rx1DRoffset > 7)) ∧
    ((NewDLsettings rx2DataRate rx1DRoffset).isOk = true ↔
      (rx2DataRate ≤ 15 ∧ rx1DRoffset ≤ 7)) ∧
    (NewDLsettings 15 7).isOk = true ∧
    (NewDLsettings 16 0).isError = true ∧
    (NewDLsettings 0 8).isError = true := by
  refine ⟨?_, ?_, by decide, by decide, by decide⟩
  · unfold NewDLsettings
    by_cases hr : rx2DataRate > 15
    · simp [hr, Result.isError]
    · by_cases ho : rx1DRoffset > 7
      · simp [hr, ho, Result.isError]
      · simp [hr, ho, Result.isError]
  · unfold NewDLsettings
    by_cases hr : rx2DataRate > 15
    · simp [hr, Result.isOk]
    · by_cases ho : rx1DRoffset > 7
      · simp [hr, ho, Result.isOk]
      · simp [hr, ho, Result.isOk]
        omega

/-- Claim C12: for `rx2DataRate ≤ 15` and `rx1DRoffset ≤ 7`, `NewDLsettings`
returns a value `s` with a nil error such that `s.RX2DataRate() = rx2DataRate`
and `s.RX1DRoffset() = rx1DRoffset`. -/
theorem C12_NewDLsettings_accessors (rx2DataRate rx1DRoffset : Nat)
    (hr : rx2DataRate ≤ 15) (ho : rx1DRoffset ≤ 7) :
    ∃ s, NewDLsettings rx2DataRate rx1DRoffset = .ok s ∧
      DLsettings.RX2DataRate s = rx2DataRate ∧ DLsettings.RX1DRoffset s = rx1DRoffset := by
  have hstep : ∀ r < 16, ∀ o < 8,
      (NewDLsettings r o = .ok (r ^^^ ((o <<< 4) % 256)) ∧
        DLsettings.RX2DataRate (r ^^^ ((o <<< 4) % 256)) = r ∧
        DLsettings.RX1DRoffset (r ^^^ ((o <<< 4) % 256)) = o) := by
    decide
  exact ⟨_, hstep rx2DataRate (by omega) rx1DRoffset (by omega)⟩

/-- Witness for C12 at `NewDLsettings(7, 6)`. -/
theorem C12_NewDLsettings_accessors_witness :
    7 ≤ 15 ∧ 6 ≤ 7 ∧
      ∃ s, NewDLsettings 7 6 = .ok s ∧
        DLsettings.RX2DataRate s = 7 ∧ DLsettings.RX1DRoffset s = 6 :=
  ⟨by decide, by decide, C12_NewDLsettings_accessors 7 6 (by decide) (by decide)⟩

/-- Claim C13: for `rx2DataRate ≤ 15` and `rx1DRoffset ≤ 7`, the byte returned by
`NewDLsettings` is `16 * rx1DRoffset + rx2DataRate`: bits 6..4 of it read
`rx1DRoffset`, bits 3..0 read `rx2DataRate`, and bit 7 is 0. -/
theorem C13_NewDLsettings_value (rx2DataRate rx1DRoffset : Nat)
    (hr : rx2DataRate ≤ 15) (ho : rx1DRoffset ≤ 7) :
    NewDLsettings rx2DataRate rx1DRoffset = .ok (16 * rx1DRoffset + rx2DataRate) ∧
      (16 * rx1DRoffset + rx2DataRate) / 16 % 8 = rx1DRoffset ∧
      (16 * rx1DRoffset + rx2DataRate) % 16 = rx2DataRate ∧
      (16 * rx1DRoffset + rx2DataRate).testBit 7 = false ∧
      16 * rx1DRoffset + rx2DataRate < 128 := by
  have hstep : ∀ r < 16, ∀ o < 8,
      (NewDLsettings r o = .ok (16 * o + r) ∧ (16 * o + r) / 16 % 8 = o ∧
        (16 * o + r) % 16 = r ∧ (16 * o + r).testBit 7 = false ∧ 16 * o + r < 128) := by
    decide
  exact hstep rx2DataRate (by omega) rx1DRoffset (by omega)

/-- Witness for C13: `RX2DataRate = 7`, `RX1DRoffset = 6` encodes to 103. -/
theorem C13_NewDLsettings_value_witness :
    7 ≤ 15 ∧ 6 ≤ 7 ∧ NewDLsettings 7 6 = .ok 103 :=
  ⟨by decide, by decide, (C13_NewDLsettings_value 7 6 (by decide) (by decide)).1⟩

/-- Claim C14: for all eight combinations of the three flags, the accessors of
`NewLinkADRAnsPayload(chMaskACK, dataRateACK, powerACK)` return the flags, and
each accessor is unchanged when the other two flags change. -/
theorem C14_NewLinkADRAnsPayload_accessors (chMaskACK dataRateACK powerACK : Bool) :
    LinkADRAnsPayload.ChMaskACK (NewLinkADRAnsPayload chMaskACK dataRateACK powerACK)
        = chMaskACK ∧
    LinkADRAnsPayload.DataRateACK (NewLinkADRAnsPayload chMaskACK dataRateACK powerACK)
        = dataRateACK ∧
    LinkADRAnsPayload.PowerACK (NewLinkADRAnsPayload chMaskACK dataRateACK powerACK)
        = powerACK ∧
    (∀ x y : Bool,
      LinkADRAnsPayload.ChMaskACK (NewLinkADRAnsPayload chMaskACK x y)
          = LinkADRAnsPayload.ChMaskACK (NewLinkADRAnsPayload chMaskACK dataRateACK powerACK) ∧
      LinkADRAnsPayload.DataRateACK (NewLinkADRAnsPayload x dataRateACK y)
          = LinkADRAnsPayload.DataRateACK (NewLinkADRAnsPayload chMaskACK dataRateACK powerACK) ∧
      LinkADRAnsPayload.PowerACK (NewLinkADRAnsPayload x y powerACK)
          = LinkADRAnsPayload.PowerACK (NewLinkADRAnsPayload chMaskACK dataRateACK powerACK)) := by
  cases chMaskACK <;> cases dataRateACK <;> cases powerACK <;> decide

/-- Claim C15: for all eight combinations of the three flags, the accessors of
`NewRX2SetupAnsPayload(channelACK, rx2DataRateACK, rx1DRoffsetACK)` return the
flags. -/
theorem C15_NewRX2SetupAnsPayload_accessors (channelACK rx2DataRateACK rx1DRoffsetACK : Bool) :
    RX2SetupAnsPayload.ChannelACK
        (NewRX2SetupAnsPayload channelACK rx2DataRateACK rx1DRoffsetACK) = channelACK ∧
    RX2SetupAnsPayload.RX2DataRateACK
        (NewRX2SetupAnsPayload channelACK rx2DataRateACK rx1DRoffsetACK) = rx2DataRateACK ∧
    RX2SetupAnsPayload.RX1DRoffsetACK
        (NewRX2SetupAnsPayload channelACK rx2DataRateACK rx1DRoffsetACK) = rx1DRoffsetACK := by
  cases channelACK <;> cases rx2DataRateACK <;> cases rx1DRoffsetACK <;> decide

/-- Claim C19: the CID constants have the R1.0 values 0x02 .. 0x08, each `*Req`
constant equals its `*Ans` constant, the seven values are pairwise distinct,
and all are below 0x80. -/
theorem C19_CID_values :
    (LinkCheckReq = 0x02 ∧ LinkADRReq = 0x03 ∧ DutyCycleReq = 0x04 ∧
      RXParamSetupReq = 0x05 ∧ DevStatusReq = 0x06 ∧ NewChannelReq = 0x07 ∧
      RXTimingSetupReq = 0x08) ∧
    (LinkCheckReq = LinkCheckAns ∧ LinkADRReq = LinkADRAns ∧ DutyCycleReq = DutyCycleAns ∧
      RXParamSetupReq = RXParamSetupAns ∧ DevStatusReq = DevStatusAns ∧
      NewChannelReq = NewChannelAns ∧ RXTimingSetupReq = RXTimingSetupAns) ∧
    [LinkCheckReq, LinkADRReq, DutyCycleReq, RXParamSetupReq, DevStatusReq,
      NewChannelReq, RXTimingSetupReq].Nodup ∧
    (∀ cid ∈ [LinkCheckReq, LinkCheckAns, LinkADRReq, LinkADRAns, DutyCycleReq, DutyCycleAns,
      RXParamSetupReq, RXParamSetupAns, DevStatusReq, DevStatusAns, NewChannelReq,
      NewChannelAns, RXTimingSetupReq, RXTimingSetupAns], cid < 0x80) := by
  decide

/-- Claim C16: for every mask `m`, `m.Channels()` is strictly increasing, a
number `c` is listed exactly when `1 ≤ c ≤ 16` and bit `(c-1) mod 8` of byte
`(c-1) div 8` is set, the zero mask yields no channels, and the length of the
result is the number of set bits. -/
theorem C16_Channels_characterisation (m : ChMask) :
    m.Channels.Sorted (· < ·) ∧
    (∀ c, c ∈ m.Channels ↔
      (1 ≤ c ∧ c ≤ 16 ∧
        ((m.index? ((c - 1) / 8)).getD 0).testBit ((c - 1) % 8) = true)) ∧
    ChMask.zero.Channels = [] ∧
    m.Channels.length = m.setBits := by
  refine ⟨ChMask.Channels_sorted m, ?_, by decide, ChMask.Channels_length m⟩
  intro c
  rw [ChMask.mem_Channels]
  constructor
  · rintro ⟨k, hk, hbit, rfl⟩
    refine ⟨by omega, by omega, ?_⟩
    simpa [ChMask.bit] using hbit
  · rintro ⟨h1, h16, hbit⟩
    exact ⟨c - 1, by omega, hbit, by omega⟩

/-- Claim C17: for every Frequency `f = [b0, b1, b2]` of bytes, `f.Uint32()` is
`b0 + 256 * b1 + 65536 * b2` and therefore below `2^24`. -/
theorem C17_Frequency_Uint32_value (f : Frequency)
    (h0 : f.b0 < 256) (h1 : f.b1 < 256) (h2 : f.b2 < 256) :
    f.Uint32 = f.b0 + 256 * f.b1 + 65536 * f.b2 ∧ f.Uint32 < 2 ^ 24 := by
  have hval : f.Uint32 = f.b0 + 256 * f.b1 + 65536 * f.b2 :=
    Frequency.Uint32_eq_le24 f h0 h1
  refine ⟨hval, ?_⟩
  rw [hval]
  norm_num
  omega

/-- Witness for C17 at the Frequency `[1, 2, 3]`. -/
theorem C17_Frequency_Uint32_value_witness :
    (1 < 256 ∧ 2 < 256 ∧ 3 < 256) ∧
      (Frequency.Uint32 ⟨1, 2, 3⟩ = 1 + 256 * 2 + 65536 * 3 ∧
        Frequency.Uint32 ⟨1, 2, 3⟩ < 2 ^ 24) :=
  ⟨by decide, C17_Frequency_Uint32_value ⟨1, 2, 3⟩ (by decide) (by decide) (by decide)⟩

/-- Claim C18 (counterexample): the Frequency `[1, 0, 0]` holds the integer 1 and
`Uint32()` returns 1, not 100; `NewFrequency(25)` stores 25 and not `25 / 100`. -/
theorem C18_no_factor_100_counterexample :
    ¬ (Frequency.Uint32 ⟨1, 0, 0⟩ = 100 * Frequency.le24 ⟨1, 0, 0⟩ ∧
        ∀ fr : Frequency, NewFrequency 25 = .ok fr → fr.le24 = 25 / 100) := by
  intro h
  have h1 : Frequency.Uint32 ⟨1, 0, 0⟩ = 1 := by decide
  have h2 : Frequency.le24 ⟨1, 0, 0⟩ = 1 := by decide
  rw [h1, h2] at h
  exact absurd h.1 (by decide)

/-- Claim C18 (amended): Frequency does no unit conversion. For every Frequency
`f` of bytes, `f.Uint32()` is the little-endian 24-bit integer held in the
three bytes itself, and whenever `NewFrequency` accepts its argument, the
integer held in the stored bytes, and `Uint32()` of them, is the argument
itself. -/
theorem C18_Frequency_no_unit_conversion (f : Frequency) (x : Nat) (fr : Frequency)
    (h0 : f.b0 < 256) (h1 : f.b1 < 256)
    (hok : NewFrequency x = .ok fr) :
    f.Uint32 = f.le24 ∧ fr.le24 = x ∧ fr.Uint32 = x := by
  obtain ⟨hx, hfr⟩ := NewFrequency.ok_value x fr hok
  subst hfr
  have hle : Frequency.le24 ⟨x, 0, 0⟩ = x := by simp [Frequency.le24]
  refine ⟨Frequency.Uint32_eq_le24 f h0 h1, hle, ?_⟩
  rw [Frequency.Uint32_eq_le24 _ hx (by norm_num)]
  exact hle

/-- Witness for the amended C18 at the Frequency `[1, 2, 3]` and `NewFrequency(25)`. -/
theorem C18_Frequency_no_unit_conversion_witness :
    (1 < 256 ∧ 2 < 256 ∧ NewFrequency 25 = .ok ⟨25, 0, 0⟩) ∧
      (Frequency.Uint32 ⟨1, 2, 3⟩ = Frequency.le24 ⟨1, 2, 3⟩ ∧
        Frequency.le24 ⟨25, 0, 0⟩ = 25 ∧ Frequency.Uint32 ⟨25, 0, 0⟩ = 25) :=
  ⟨by decide,
    C18_Frequency_no_unit_conversion ⟨1, 2, 3⟩ 25 ⟨25, 0, 0⟩ (by decide) (by decide)
      (by decide)⟩

/-- Claim C20: for every Redundacy value `r`, `r.ChMaskCntl() = (r div 16) mod 8`
and `r.NbRep() = r mod 16`, so `ChMaskCntl() ≤ 7` and `NbRep() ≤ 15`; clearing
bit 7 (`r mod 128`) changes neither; the zero value yields 0 and 0. -/
theorem C20_Redundacy_accessor_values (r : Nat) :
    Redundacy.ChMaskCntl r = r / 16 % 8 ∧ Redundacy.NbRep r = r % 16 ∧
    Redundacy.ChMaskCntl r ≤ 7 ∧ Redundacy.NbRep r ≤ 15 ∧
    Redundacy.ChMaskCntl (r % 128) = Redundacy.ChMaskCntl r ∧
    Redundacy.NbRep (r % 128) = Redundacy.NbRep r ∧
    Redundacy.ChMaskCntl 0 = 0 ∧ Redundacy.NbRep 0 = 0 := by
  rw [Redundacy.ChMaskCntl_eq, Redundacy.NbRep_eq, Redundacy.ChMaskCntl_eq, Redundacy.NbRep_eq,
    Redundacy.ChMaskCntl_eq, Redundacy.NbRep_eq]
  refine ⟨rfl, rfl, by omega, by omega, by omega, by omega, by decide, by decide⟩

/-- Claim C21: for every DataRateTXPower byte `d`, `d.DataRate() = d div 16` and
`d.TXPower() = d mod 16`, both at most 15, and the zero value yields 0 and 0. -/
theorem C21_DataRateTXPower_accessor_values (d : Nat) (hd : d < 256) :
    DataRateTXPower.DataRate d = d / 16 ∧ DataRateTXPower.TXPower d = d % 16 ∧
    DataRateTXPower.DataRate d ≤ 15 ∧ DataRateTXPower.TXPower d ≤ 15 ∧
    DataRateTXPower.DataRate 0 = 0 ∧ DataRateTXPower.TXPower 0 = 0 := by
  rw [DataRateTXPower.DataRate_eq, DataRateTXPower.TXPower_eq]
  refine ⟨rfl, rfl, by omega, by omega, by decide, by decide⟩

/-- Witness for C21 at the byte 190, the value of `NewDataRateTXPower(11, 14)`. -/
theorem C21_DataRateTXPower_accessor_values_witness :
    190 < 256 ∧
      (DataRateTXPower.DataRate 190 = 190 / 16 ∧ DataRateTXPower.TXPower 190 = 190 % 16 ∧
        DataRateTXPower.DataRate 190 ≤ 15 ∧ DataRateTXPower.TXPower 190 ≤ 15 ∧
        DataRateTXPower.DataRate 0 = 0 ∧ DataRateTXPower.TXPower 0 = 0) :=
  ⟨by decide, C21_DataRateTXPower_accessor_values 190 (by decide)⟩

/-- Claim C22 (evaluation of the code at the failing input): the channel number 0
passes the check `c > 16`, its zero-based value in uint8 arithmetic is 255, the
byte index is `255 div 8 = 31`, and `NewChMask(0)` ends in a run-time fault
instead of returning a mask or an error. -/
theorem C22_NewChMask_zero_faults :
    ¬ (0 > 16) ∧ (0 + 256 - 1) % 256 / 8 = 31 ∧ ChMask.zero.index? 31 = none ∧
      NewChMask [0] = .crash := by
  decide

/-- Claim C25: whenever `NewFrequency(f)` returns with a nil error, `Uint32()` of
the returned Frequency is `f`. -/
theorem C25_NewFrequency_Uint32 (f : Nat) (fr : Frequency) (hok : NewFrequency f = .ok fr) :
    fr.Uint32 = f := by
  obtain ⟨hx, hfr⟩ := NewFrequency.ok_value f fr hok
  subst hfr
  rw [Frequency.Uint32_eq_le24 _ hx (by norm_num)]
  simp [Frequency.le24]

/-- Witness for C25 at `NewFrequency(25)`. -/
theorem C25_NewFrequency_Uint32_witness :
    NewFrequency 25 = .ok ⟨25, 0, 0⟩ ∧ Frequency.Uint32 ⟨25, 0, 0⟩ = 25 :=
  ⟨by decide, C25_NewFrequency_Uint32 25 ⟨25, 0, 0⟩ (by decide)⟩

/-- Claim C27: when both arguments are out of range, `NewRedundacy` returns the
chMaskCntl error, `NewDataRateTXPower` the dataRate error and `NewDLsettings`
the rx2DataRate error; the error is the same for all such arguments. -/
theorem C27_first_field_error (chMaskCntl nbRep dataRate txPower rx2DataRate rx1DRoffset : Nat)
    (hc : chMaskCntl > 7) (_hn : nbRep > 15) (hd : dataRate > 15) (_ht : txPower > 15)
    (hr : rx2DataRate > 15) (_ho : rx1DRoffset > 7) :
    NewRedundacy chMaskCntl nbRep = .error 0 "lorawan: max value of chMaskCntl is 7" ∧
    NewDataRateTXPower dataRate txPower = .error 0 "lorawan: max value for dataRate is 15" ∧
    NewDLsettings rx2DataRate rx1DRoffset
      = .error 0 "lorawan: max value for rx2DataRate is 15" := by
  refine ⟨?_, ?_, ?_⟩
  · simp [NewRedundacy, hc]
  · simp [NewDataRateTXPower, hd]
  · simp [NewDLsettings, hr]

/-- Witness for C27 at `NewRedundacy(8, 16)`, `NewDataRateTXPower(16, 16)` and
`NewDLsettings(16, 8)`. -/
theorem C27_first_field_error_witness :
    (8 > 7 ∧ 16 > 15 ∧ 16 > 15 ∧ 16 > 15 ∧ 16 > 15 ∧ 8 > 7) ∧
      (NewRedundacy 8 16 = .error 0 "lorawan: max value of chMaskCntl is 7" ∧
       NewDataRateTXPower 16 16 = .error 0 "lorawan: max value for dataRate is 15" ∧
       NewDLsettings 16 8 = .error 0 "lorawan: max value for rx2DataRate is 15") :=
  ⟨by decide,
    C27_first_field_error 8 16 16 16 16 8 (by decide) (by decide) (by decide) (by decide)
      (by decide) (by decide)⟩

/-- Claim C30: for all booleans `a`, `b`, `c`, `NewLinkADRAnsPayload(a, b, c)` and
`NewRX2SetupAnsPayload(a, b, c)` both have the value `a + 2 b + 4 c` (flags read
as 0 or 1): bit 0 is `a`, bit 1 is `b`, bit 2 is `c`, the value is below 8 so
bits 7..3 are 0, and `(false, false, false)` gives 0, whose accessors are all
false. -/
theorem C30_ACK_payload_values (a b c : Bool) :
    NewLinkADRAnsPayload a b c = a.toNat + 2 * b.toNat + 4 * c.toNat ∧
    NewRX2SetupAnsPayload a b c = a.toNat + 2 * b.toNat + 4 * c.toNat ∧
    (NewLinkADRAnsPayload a b c).testBit 0 = a ∧
    (NewLinkADRAnsPayload a b c).testBit 1 = b ∧
    (NewLinkADRAnsPayload a b c).testBit 2 = c ∧
    NewLinkADRAnsPayload a b c < 8 ∧ NewRX2SetupAnsPayload a b c < 8 ∧
    NewLinkADRAnsPayload false false false = 0 ∧
    NewRX2SetupAnsPayload false false false = 0 ∧
    LinkADRAnsPayload.ChMaskACK 0 = false ∧ LinkADRAnsPayload.DataRateACK 0 = false ∧
    LinkADRAnsPayload.PowerACK 0 = false ∧
    RX2SetupAnsPayload.ChannelACK 0 = false ∧ RX2SetupAnsPayload.RX2DataRateACK 0 = false ∧
    RX2SetupAnsPayload.RX1DRoffsetACK 0 = false := by
  cases a <;> cases b <;> cases c <;> decide

/-- Claim C23: for channel numbers all in `1..16`, duplicates allowed,
`NewChMask` returns a mask with a nil error in which, for every `c` in `1..16`,
bit `(c-1) mod 8` of byte `(c-1) div 8` is set exactly when `c` occurs an odd
number of times; any rearrangement of the arguments gives the same mask; for
pairwise distinct arguments the mask read as a little-endian 16-bit integer is
the sum of `2^(c-1)`; and `NewChMask(1, 5, 7, 11) = [0x51, 0x04]`. -/
theorem C23_NewChMask_odd_occurrences (chans chans' : List Nat)
    (hr : ∀ c ∈ chans, 1 ≤ c ∧ c ≤ 16) (hperm : chans.Perm chans') :
    ∃ mask, NewChMask chans = .ok mask ∧
      (∀ c, 1 ≤ c → c ≤ 16 →
        (((mask.index? ((c - 1) / 8)).getD 0).testBit ((c - 1) % 8) = true ↔
          chans.count c % 2 = 1)) ∧
      NewChMask chans' = .ok mask ∧
      (chans.Nodup → mask.b0 + 256 * mask.b1 = (chans.map (fun c => 2 ^ (c - 1))).sum) ∧
      NewChMask [1, 5, 7, 11] = .ok ⟨0x51, 0x04⟩ := by
  obtain ⟨mask, hok, hbits⟩ := NewChMask.loop_bits chans ChMask.zero hr
  have hr' : ∀ c ∈ chans', 1 ≤ c ∧ c ≤ 16 := fun c hc => hr c (hperm.mem_iff.2 hc)
  obtain ⟨mask', hok', hbits'⟩ := NewChMask.loop_bits chans' ChMask.zero hr'
  have hbytes := NewChMask.loop_bytes_lt chans ChMask.zero mask hr (by decide) (by decide) hok
  have hbytes' :=
    NewChMask.loop_bytes_lt chans' ChMask.zero mask' hr' (by decide) (by decide) hok'
  have hsame : mask' = mask := by
    apply ChMask.ext_of_bits mask' mask hbytes'.1 hbytes'.2 hbytes.1 hbytes.2
    intro k _
    rw [hbits k, hbits' k, hperm.count_eq]
  refine ⟨mask, hok, ?_, ?_, ?_, by decide⟩
  · intro c h1 _
    have hc1 : c - 1 + 1 = c := by omega
    have hb := hbits (c - 1)
    rw [ChMask.zero_bit, hc1] at hb
    simp only [ChMask.bit] at hb
    rw [hb]
    simp
  · rw [← hsame]
    exact hok'
  · intro hnd
    obtain ⟨mask2, hok2, hval⟩ := NewChMask.value_of_nodup chans hnd hr
    have heq : Result.ok mask2 = Result.ok mask := by
      rw [← hok2]
      exact hok
    injection heq with hm
    rw [← hm]
    exact hval

/-- Witness for C23 at `NewChMask(5, 1, 5, 11)` and its rearrangement
`NewChMask(11, 5, 5, 1)`: channel 5 occurs twice and is absent from the mask. -/
theorem C23_NewChMask_odd_occurrences_witness :
    (∀ c ∈ [5, 1, 5, 11], 1 ≤ c ∧ c ≤ 16) ∧ [5, 1, 5, 11].Perm [11, 5, 5, 1] ∧
      ∃ mask, NewChMask [5, 1, 5, 11] = .ok mask ∧
        (∀ c, 1 ≤ c → c ≤ 16 →
          (((mask.index? ((c - 1) / 8)).getD 0).testBit ((c - 1) % 8) = true ↔
            [5, 1, 5, 11].count c % 2 = 1)) ∧
        NewChMask [11, 5, 5, 1] = .ok mask ∧
        ([5, 1, 5, 11].Nodup →
          mask.b0 + 256 * mask.b1 = ([5, 1, 5, 11].map (fun c => 2 ^ (c - 1))).sum) ∧
        NewChMask [1, 5, 7, 11] = .ok ⟨0x51, 0x04⟩ :=
  ⟨by decide, by decide,
    C23_NewChMask_odd_occurrences [5, 1, 5, 11] [11, 5, 5, 1] (by decide) (by decide)⟩

/-- Claim C24: for every mask `m` of two bytes, `NewChMask` applied to
`m.Channels()` returns exactly `m` with a nil error. -/
theorem C24_NewChMask_Channels_identity (m : ChMask) (h0 : m.b0 < 256) (h1 : m.b1 < 256) :
    NewChMask m.Channels = .ok m := by
  have hnd : m.Channels.Nodup := (ChMask.Channels_sorted m).imp (fun h => Nat.ne_of_lt h)
  have hr : ∀ c ∈ m.Channels, 1 ≤ c ∧ c ≤ 16 := by
    intro c hc
    obtain ⟨k, hk, _, rfl⟩ := (ChMask.mem_Channels m c).1 hc
    omega
  obtain ⟨mask, hok, hbits⟩ := NewChMask.bits_of_nodup m.Channels hnd hr
  have hbytes :=
    NewChMask.loop_bytes_lt m.Channels ChMask.zero mask hr (by decide) (by decide) hok
  have hsame : mask = m := by
    apply ChMask.ext_of_bits mask m hbytes.1 hbytes.2 h0 h1
    intro k hk
    rw [hbits k]
    cases hb : m.bit k
    · apply decide_eq_false
      intro hmem
      obtain ⟨k', _, hbit', hk'⟩ := (ChMask.mem_Channels m (k + 1)).1 hmem
      have hkk : k' = k := by omega
      rw [hkk, hb] at hbit'
      cases hbit'
    · exact decide_eq_true ((ChMask.mem_Channels m (k + 1)).2 ⟨k, hk, hb, rfl⟩)
  rw [hsame] at hok
  exact hok

/-- Witness for C24 at the mask `[0x51, 0x04]` of the channels 1, 5, 7 and 11. -/
theorem C24_NewChMask_Channels_identity_witness :
    (0x51 < 256 ∧ 0x04 < 256) ∧ NewChMask (ChMask.Channels ⟨0x51, 0x04⟩) = .ok ⟨0x51, 0x04⟩ :=
  ⟨by decide, C24_NewChMask_Channels_identity ⟨0x51, 0x04⟩ (by decide) (by decide)⟩

/-- The five constructors other than `NewChMask` return the zero value of their
type together with every error. -/
theorem error_value_zero_of_scalar_constructors (chMaskCntl nbRep dataRate txPower maxDCycle
    rx2DataRate rx1DRoffset frequency : Nat) :
    (∀ v msg, NewRedundacy chMaskCntl nbRep = .error v msg → v = 0) ∧
    (∀ v msg, NewDataRateTXPower dataRate txPower = .error v msg → v = 0) ∧
    (∀ v msg, NewDutyCycleReqPayload maxDCycle = .error v msg → v = 0) ∧
    (∀ v msg, NewDLsettings rx2DataRate rx1DRoffset = .error v msg → v = 0) ∧
    (∀ v msg, NewFrequency frequency = .error v msg → v = Frequency.zero) := by
  refine ⟨?_, ?_, ?_, ?_, ?_⟩
  · intro v msg h
    unfold NewRedundacy at h
    split at h
    · injection h with hv _; exact hv.symm
    · split at h
      · injection h with hv _; exact hv.symm
      · cases h
  · intro v msg h
    unfold NewDataRateTXPower at h
    split at h
    · injection h with hv _; exact hv.symm
    · split at h
      · injection h with hv _; exact hv.symm
      · cases h
  · intro v msg h
    unfold NewDutyCycleReqPayload at h
    split at h
    · injection h with hv _; exact hv.symm
    · cases h
  · intro v msg h
    unfold NewDLsettings at h
    split at h
    · injection h with hv _; exact hv.symm
    · split at h
      · injection h with hv _; exact hv.symm
      · cases h
  · intro v msg h
    unfold NewFrequency at h
    split at h
    · injection h with hv _; exact hv.symm
    · cases h

/-- What the loop of `NewChMask` hands back with the error: the mask as it stands
after the channel numbers in `1..16` that come before the rejected one, which
is the zero mask only when the rejected channel number comes first. -/
theorem NewChMask.error_value_after_valid_front (pre : List Nat) (c : Nat) (rest : List Nat)
    (hpre : ∀ x ∈ pre, 1 ≤ x ∧ x ≤ 16) (hc : c > 16) :
    (∃ mask, NewChMask pre = .ok mask ∧
      NewChMask (pre ++ c :: rest) = .error mask "lorawan: the max. channel number is 16") ∧
    NewChMask (c :: rest) = .error ChMask.zero "lorawan: the max. channel number is 16" := by
  refine ⟨?_, ?_⟩
  · obtain ⟨mask, hok, happ⟩ := NewChMask.loop_append_valid pre ChMask.zero hpre
    refine ⟨mask, hok, ?_⟩
    unfold NewChMask
    rw [happ (c :: rest)]
    simp [NewChMask.loop, hc]
  · simp [NewChMask, NewChMask.loop, hc]

/-- Claim C26 (evaluation of the code at the failing input): `NewChMask(1, 17)`
returns its error together with the mask `[0x01, 0x00]` already built for
channel 1, which is not the zero value of `ChMask`; so it is not true that the
value returned with an error is always the zero value. `NewChMask(17)`, where
the rejected channel number comes first, does return the zero mask. -/
theorem C26_NewChMask_error_keeps_built_mask :
    NewChMask [1, 17] = .error ⟨1, 0⟩ "lorawan: the max. channel number is 16" ∧
    (⟨1, 0⟩ : ChMask) ≠ ChMask.zero ∧
    NewChMask [17] = .error ChMask.zero "lorawan: the max. channel number is 16" ∧
    ¬ (∀ (v : ChMask) (msg : String), NewChMask [1, 17] = .error v msg → v = ChMask.zero) := by
  refine ⟨by decide, by decide, by decide, ?_⟩
  intro h
  have hv := h ⟨1, 0⟩ "lorawan: the max. channel number is 16" (by decide)
  exact absurd hv (by decide)

/-- Claim C28: for every DLsettings byte `s`, `NewDLsettings(s.RX2DataRate(),
s.RX1DRoffset())` returns `s AND 0x7F` with a nil error; the two bytes that
agree with `s` outside bit 7 decode to the same RX2DataRate and RX1DRoffset as
`s`; and the result is `s` itself exactly when bit 7 of `s` is 0. -/
theorem C28_NewDLsettings_reencode (s : Nat) (hs : s < 256) :
    NewDLsettings (DLsettings.RX2DataRate s) (DLsettings.RX1DRoffset s)
        = .ok (s &&& 0x7F) ∧
    s &&& 0x7F = s % 128 ∧
    DLsettings.RX2DataRate (s % 128) = DLsettings.RX2DataRate s ∧
    DLsettings.RX1DRoffset (s % 128) = DLsettings.RX1DRoffset s ∧
    DLsettings.RX2DataRate (s % 128 + 128) = DLsettings.RX2DataRate s ∧
    DLsettings.RX1DRoffset (s % 128 + 128) = DLsettings.RX1DRoffset s ∧
    (NewDLsettings (DLsettings.RX2DataRate s) (DLsettings.RX1DRoffset s) = .ok s ↔
      s.testBit 7 = false) := by
  have hand : s &&& 0x7F = s % 128 := by
    have h127 : (0x7F : Nat) = 2 ^ 7 - 1 := by decide
    have h128 : (128 : Nat) = 2 ^ 7 := by decide
    rw [h127, h128, Nat.and_pow_two_sub_one_eq_mod]
  have hval : NewDLsettings (DLsettings.RX2DataRate s) (DLsettings.RX1DRoffset s)
      = .ok (s % 128) := by
    rw [DLsettings.RX2DataRate_eq, DLsettings.RX1DRoffset_eq,
      NewDLsettings.byte_of_args_le (s % 16) (s / 16 % 8) (by omega) (by omega)]
    congr 1
    omega
  have hbit : s.testBit 7 = false ↔ s < 128 := by
    rw [Nat.testBit_to_div_mod]
    simp only [decide_eq_false_iff_not]
    have h128 : (2 : Nat) ^ 7 = 128 := by decide
    rw [h128]
    omega
  refine ⟨by rw [hval, hand], hand, ?_, ?_, ?_, ?_, ?_⟩
  · rw [DLsettings.RX2DataRate_eq, DLsettings.RX2DataRate_eq]; omega
  · rw [DLsettings.RX1DRoffset_eq, DLsettings.RX1DRoffset_eq]; omega
  · rw [DLsettings.RX2DataRate_eq, DLsettings.RX2DataRate_eq]; omega
  · rw [DLsettings.RX1DRoffset_eq, DLsettings.RX1DRoffset_eq]; omega
  · rw [hval, hbit]
    constructor
    · intro h
      injection h with h'
      omega
    · intro h
      congr 1
      omega

/-- Witness for C28 at the byte 0xE7 = 231, which is 103 with bit 7 set. -/
theorem C28_NewDLsettings_reencode_witness :
    231 < 256 ∧
    (NewDLsettings (DLsettings.RX2DataRate 231) (DLsettings.RX1DRoffset 231)
        = .ok (231 &&& 0x7F) ∧
     231 &&& 0x7F = 231 % 128 ∧
     DLsettings.RX2DataRate (231 % 128) = DLsettings.RX2DataRate 231 ∧
     DLsettings.RX1DRoffset (231 % 128) = DLsettings.RX1DRoffset 231 ∧
     DLsettings.RX2DataRate (231 % 128 + 128) = DLsettings.RX2DataRate 231 ∧
     DLsettings.RX1DRoffset (231 % 128 + 128) = DLsettings.RX1DRoffset 231 ∧
     (NewDLsettings (DLsettings.RX2DataRate 231) (DLsettings.RX1DRoffset 231) = .ok 231 ↔
       (231 : Nat).testBit 7 = false)) :=
  ⟨by decide, C28_NewDLsettings_reencode 231 (by decide)⟩

/-- Claim C29: for every DataRateTXPower byte `d`, `NewDataRateTXPower(d.DataRate(),
d.TXPower())` returns exactly `d` with a nil error; on `dataRate ≤ 15` and
`txPower ≤ 15` the constructor has the value `16 * dataRate + txPower`, a byte,
is injective, and reaches every byte. -/
theorem C29_NewDataRateTXPower_bijection (d dataRate txPower dataRate' txPower' : Nat)
    (hd : d < 256) (hr : dataRate ≤ 15) (ht : txPower ≤ 15)
    (hr' : dataRate' ≤ 15) (ht' : txPower' ≤ 15) :
    NewDataRateTXPower (DataRateTXPower.DataRate d) (DataRateTXPower.TXPower d) = .ok d ∧
    NewDataRateTXPower dataRate txPower = .ok (16 * dataRate + txPower) ∧
    16 * dataRate + txPower < 256 ∧
    (NewDataRateTXPower dataRate txPower = NewDataRateTXPower dataRate' txPower' →
      dataRate = dataRate' ∧ txPower = txPower') ∧
    (∃ r t, r ≤ 15 ∧ t ≤ 15 ∧ NewDataRateTXPower r t = .ok d) := by
  have hback : NewDataRateTXPower (d / 16) (d % 16) = .ok d := by
    rw [NewDataRateTXPower.value_of_args_le (d / 16) (d % 16) (by omega) (by omega)]
    congr 1
    omega
  refine ⟨?_, NewDataRateTXPower.value_of_args_le dataRate txPower hr ht, by omega, ?_, ?_⟩
  · rw [DataRateTXPower.DataRate_eq, DataRateTXPower.TXPower_eq]
    exact hback
  · intro h
    rw [NewDataRateTXPower.value_of_args_le dataRate txPower hr ht,
      NewDataRateTXPower.value_of_args_le dataRate' txPower' hr' ht'] at h
    injection h with h'
    omega
  · exact ⟨d / 16, d % 16, by omega, by omega, hback⟩

/-- Witness for C29 at the byte 190 and the arguments (11, 14) and (14, 11). -/
theorem C29_NewDataRateTXPower_bijection_witness :
    (190 < 256 ∧ 11 ≤ 15 ∧ 14 ≤ 15 ∧ 14 ≤ 15 ∧ 11 ≤ 15) ∧
    (NewDataRateTXPower (DataRateTXPower.DataRate 190) (DataRateTXPower.TXPower 190)
        = .ok 190 ∧
     NewDataRateTXPower 11 14 = .ok (16 * 11 + 14) ∧
     16 * 11 + 14 < 256 ∧
     (NewDataRateTXPower 11 14 = NewDataRateTXPower 14 11 → 11 = 14 ∧ 14 = 11) ∧
     (∃ r t, r ≤ 15 ∧ t ≤ 15 ∧ NewDataRateTXPower r t = .ok 190)) :=
  ⟨by decide,
    C29_NewDataRateTXPower_bijection 190 11 14 14 11 (by decide) (by decide) (by decide)
      (by decide) (by decide)⟩

example : NewChMask [1, 5, 7, 11] = .ok ⟨0x51, 0x04⟩ := by decide
example : ChMask.Channels ⟨0x51, 0x04⟩ = [1, 5, 7, 11] := by decide
example : NewChMask [1, 1] = .ok ⟨0, 0⟩ := by decide
example : NewChMask [0, 17] = .crash := by decide
example : NewChMask [1, 2, 17] = .error ⟨3, 0⟩ "lorawan: the max. channel number is 16" := by decide
example : NewFrequency.bound = 26 := by decide
example : NewFrequency 25 = .ok ⟨25, 0, 0⟩ := by decide
example : (NewFrequency 26).isError = true := by decide
example : Frequency.Uint32 ⟨1, 2, 3⟩ = 1 + 256 * 2 + 65536 * 3 := by decide
example : NewRedundacy 5 11 = .ok 91 := by decide
example : NewDataRateTXPower 11 14 = .ok 190 := by decide
example : NewDLsettings 7 6 = .ok 103 := by decide
example : NewLinkADRAnsPayload true true false = 3 := by decide
example : Frequency.Uint32 ⟨1, 0, 0⟩ = 1 := by decide
example : ChMask.setBits ⟨0x51, 0x04⟩ = 4 := by decide

end Lorawan
